import Mathlib

/-!
# dungeon_game (`game.cpp`): a shallow embedding and its verified properties

The development embeds the pure and the state-changing parts of `game.cpp`:
the bounded arithmetic (`bound`, `subMag`, `updateVel`), the movement
integrator (`Movement::update`), the entity store of `Game`
(`nextId`, `newEntity`, `player`, `entity`, `erase`), the input handlers
(`Game::mouseEvent`, `Game::keyEvent`, `consumeEvents`), the render transform
(`Entity::displayLoc`, `Entity::sdlRect`), `update`, `paintScreen`,
`eventLoop` and the set-up part of `game`.

Conventions of the embedding

* A C++ `int` is an `Int` in the range `INT_MIN .. INT_MAX` (32 bits).  Every
  `int` operation whose result can leave that range is followed by `wrapInt`,
  the two's-complement wrap-around that the compiled program performs (the
  C++ standard leaves signed overflow undefined).  Where a value cannot leave
  the range (`-abs` under `assert(abs >= 0)`, `w / 2`, the difference of two
  promoted `Uint8` latches) no wrap is written.
* `Uint8` and `Uint64` values are `Nat`s.  The only `Uint8` values written are
  the images of a `bool` (0 or 1); the `Uint64` identifier counter only counts
  up by one from zero.  The `Uint32` loop counter wraps modulo 2^32.
* A failing `assert` aborts the program: a function containing one returns
  `Option`, and `none` is the aborted run.
* `unordered_map<Uint64, Entity>` is an association list with unique keys;
  nothing below depends on the order of its entries.
* A C++ reference into the map (`Entity&`) is modelled by reading the entry,
  and writing the changed entry back under the same key.
* Calls into SDL that only draw or print are left out; the rectangles handed
  to the renderer are returned as a list.
-/

namespace DungeonGame

/-! ## Geometry -/

/-- The struct `Size`: `int w{}, h{}`. -/
structure Size where
  w : Int := 0
  h : Int := 0
deriving DecidableEq, Repr

/-- The struct `Loc`: `int x{}, y{}`. -/
structure Loc where
  x : Int := 0
  y : Int := 0
deriving DecidableEq, Repr

/-- The limits of the 32-bit `int`. -/
def INT_MIN : Int := -2147483648
def INT_MAX : Int := 2147483647

/-- The result of a 32-bit `int` operation whose exact value is `z`: the
representative of `z` modulo 2^32 in `INT_MIN .. INT_MAX`. -/
def wrapInt (z : Int) : Int := (z + 2147483648) % 4294967296 - 2147483648

/-- `Loc::operator==`. -/
def Loc.eq (l r : Loc) : Bool := l.x == r.x && l.y == r.y

/-- Unary `Loc::operator-`. -/
def Loc.neg (l : Loc) : Loc := ⟨wrapInt (-l.x), wrapInt (-l.y)⟩

/-- `Loc::operator+`. -/
def Loc.add (l r : Loc) : Loc := ⟨wrapInt (l.x + r.x), wrapInt (l.y + r.y)⟩

/-- Binary `Loc::operator-`. -/
def Loc.sub (l r : Loc) : Loc := ⟨wrapInt (l.x - r.x), wrapInt (l.y - r.y)⟩

/-- `Loc::operator*`. -/
def Loc.mul (l : Loc) (r : Int) : Loc := ⟨wrapInt (l.x * r), wrapInt (l.y * r)⟩

/-! ## Bounded arithmetic -/

/-- The function `bound(abs, val)`: `assert(abs >= 0)`, then
`min(abs, val)` for a positive `val` and `max(-abs, val)` otherwise.  Past the
assertion `abs` is a non-negative `int`, so `-abs` cannot overflow. -/
def bound (abs val : Int) : Option Int :=
  if abs ≥ 0 then
    if val > 0 then some (min abs val)
    else some (max (-abs) val)
  else none

/-- `Loc::bound(abs)`: both components through `::bound`. -/
def Loc.bound (l : Loc) (abs : Int) : Option Loc := do
  let x ← DungeonGame.bound abs l.x
  let y ← DungeonGame.bound abs l.y
  pure ⟨x, y⟩

/-- The function `subMag(val, abs)`.  The negation `-val` and the two results
are `int` operations. -/
def subMag (val abs : Int) : Int :=
  if val > 0 then
    if abs > val then 0
    else wrapInt (val - abs)
  else
    if abs > wrapInt (-val) then 0
    else wrapInt (val + abs)

/-- The function `updateVel(dir, vel, acc, maxVel)`.  The product `acc * dir`
and the sum `vel + acc * dir` are `int` operations. -/
def updateVel (dir vel acc maxVel : Int) : Option Int :=
  if dir ≠ 0 then bound maxVel (wrapInt (vel + wrapInt (acc * dir)))
  else some (subMag vel acc)

/-- The struct `Movement`: velocity `v{}`, acceleration `a{3}`, `maxV{15}`. -/
structure Movement where
  v : Loc := {}
  a : Int := 3
  maxV : Int := 15
deriving DecidableEq, Repr

/-- `Movement::update(dir)`: the two assertions on `dir`, then `v.x` and `v.y`
through `updateVel`.  `abs(dir.x)` is an `int` result (it wraps at
`INT_MIN`). -/
def Movement.update (m : Movement) (dir : Loc) : Option Movement :=
  if wrapInt |dir.x| ≤ 1 then
    if wrapInt |dir.y| ≤ 1 then do
      let vx ← updateVel dir.x m.v.x m.a m.maxV
      let m1 : Movement := { m with v := { m.v with x := vx } }
      let vy ← updateVel dir.y m1.v.y m1.a m1.maxV
      pure { m1 with v := { m1.v with y := vy } }
    else none
  else none

/-- Spec-side definition: the integer `z` is representable as an `int`. -/
def inInt (z : Int) : Prop := INT_MIN ≤ z ∧ z ≤ INT_MAX

instance (z : Int) : Decidable (inInt z) := by
  unfold inInt; infer_instance

/-- Spec-side definition, following the words "clamp of value to
[-limit, limit]": `limit` above it, `-limit` below it, `value` inside. -/
def clampTo (limit value : Int) : Int :=
  if value > limit then limit
  else if value < -limit then -limit
  else value

/-- The constants `SCREEN_WIDTH` and `SCREEN_HEIGHT`. -/
def SCREEN_WIDTH : Int := 640
def SCREEN_HEIGHT : Int := 480

/-- The struct `Color`; its constructor defaults `r`, `g`, `b` to 0 and `a`
to 255 (SDL's fully visible alpha). -/
structure Color where
  r : Nat := 0
  g : Nat := 0
  b : Nat := 0
  a : Nat := 255
deriving DecidableEq, Repr

/-- The class `Entity`.  `id` has no initialiser in the source; every entity
the program makes is value-initialised (`Entity eBack{}`, `entities[k]`) or
built as `{.id = id}`, so the field starts at 0 unless given.  The other
fields carry the member initialisers `color{0xFF}`, `sz{50, 100}`,
`loc{0, 0}`, `mv{}`. -/
structure Entity where
  id : Nat := 0
  color : Color := { r := 0xFF }
  sz : Size := ⟨50, 100⟩
  loc : Loc := ⟨0, 0⟩
  mv : Movement := {}
deriving DecidableEq, Repr

/-- `Entity::move`: `loc + mv.v` (`Loc::operator+`). -/
def Entity.move (e : Entity) : Loc := e.loc.add e.mv.v

/-- The class `Controller`: six `Uint8` latches, all starting at 0. -/
structure Controller where
  w : Nat := 0
  a : Nat := 0
  s : Nat := 0
  d : Nat := 0
  ml : Nat := 0
  mr : Nat := 0
deriving DecidableEq, Repr

/-- The data of `Display` that the game logic reads: the logical screen size
and the frame time stamp (the window and renderer handles belong to SDL). -/
structure Display where
  sz : Size := ⟨SCREEN_WIDTH, SCREEN_HEIGHT⟩
  frame : Nat := 0
deriving DecidableEq, Repr

/-- SDL's `SDL_Rect`. -/
structure SDL_Rect where
  x : Int
  y : Int
  w : Int
  h : Int
deriving DecidableEq, Repr

/-! ## The entity mapping -/

/-- The type `unordered_map<Uint64, Entity>` as an association list. -/
abbrev EntityMap := List (Nat × Entity)

namespace EntityMap

/-- Look a key up (`find` of the map). -/
def find : EntityMap → Nat → Option Entity
  | [], _ => none
  | (k, e) :: m, key => if k = key then some e else find m key

/-- Store `e` under `key`: replaces the entry of a present key, adds an entry
for an absent one (the effect of `m[key] = e`). -/
def assign : EntityMap → Nat → Entity → EntityMap
  | [], key, e => [(key, e)]
  | (k, e0) :: m, key, e =>
    if k = key then (key, e) :: m else (k, e0) :: assign m key e

/-- `operator[]`: the entry under `key`; an absent key first gets a
value-initialised entity. -/
def index (m : EntityMap) (key : Nat) : Entity × EntityMap :=
  match find m key with
  | some e => (e, m)
  | none => ({}, assign m key {})

/-- The map's `erase(key)`. -/
def erase : EntityMap → Nat → EntityMap
  | [], _ => []
  | (k, e) :: m, key => if k = key then m else (k, e) :: erase m key

end EntityMap

/-! ## Game state -/

/-- The class `Game`. -/
structure Game where
  m_nextId : Nat := 0
  entities : EntityMap := []
  controller : Controller := {}
  loop : Nat := 0
  center : Loc := ⟨0, 0⟩
  eBack : Entity := {}
  quit : Bool := false
  ctrl : Bool := false
deriving DecidableEq, Repr

namespace Game

/-- `Game::nextId`: `return m_nextId++`.  The counter is a `Uint64` that
starts at 0 and is only ever incremented by one, once per call of `newEntity`.
It is kept as a `Nat`: a run that creates entities holds one map entry per
call, so memory is exhausted long before the counter could wrap at 2^64. -/
def nextId (g : Game) : Nat × Game :=
  (g.m_nextId, { g with m_nextId := g.m_nextId + 1 })

/-- `Game::entity(id)`: `return entities[id]`. -/
def entity (g : Game) (id : Nat) : Entity × Game :=
  let r := EntityMap.index g.entities id
  (r.1, { g with entities := r.2 })

/-- `Game::player`: `return entities[0u]`. -/
def player (g : Game) : Entity × Game :=
  let r := EntityMap.index g.entities 0
  (r.1, { g with entities := r.2 })

/-- Writing through an `Entity&` that points at the entry under `id`. -/
def store (g : Game) (id : Nat) (e : Entity) : Game :=
  { g with entities := EntityMap.assign g.entities id e }

/-- `Game::newEntity`: `auto id = nextId(); entities[id] = {.id = id};
return entities[id];`. -/
def newEntity (g : Game) : Entity × Game :=
  let r := g.nextId
  let id := r.1
  let g1 := r.2
  let slot := EntityMap.index g1.entities id
  let m := EntityMap.assign slot.2 id { id := id }
  let res := EntityMap.index m id
  (res.1, { g1 with entities := res.2 })

/-- `Game::erase(id)`. -/
def erase (g : Game) (id : Nat) : Game :=
  { g with entities := EntityMap.erase g.entities id }

end Game

/-! ## Input events -/

/-- SDL2 header values of the mouse buttons. -/
def SDL_BUTTON_LEFT : Nat := 1
def SDL_BUTTON_MIDDLE : Nat := 2
def SDL_BUTTON_RIGHT : Nat := 3

/-- SDL2 header values of the key codes used by `keyEvent`. -/
def SDLK_a : Int := 97
def SDLK_c : Int := 99
def SDLK_d : Int := 100
def SDLK_s : Int := 115
def SDLK_w : Int := 119
def SDLK_RIGHT : Int := 1073741903
def SDLK_LEFT : Int := 1073741904
def SDLK_DOWN : Int := 1073741905
def SDLK_UP : Int := 1073741906
def SDLK_LCTRL : Int := 1073742048
def SDLK_RCTRL : Int := 1073742052

/-- SDL2 header values of the event types used by `consumeEvents`. -/
def SDL_QUIT : Nat := 0x100
def SDL_KEYDOWN : Nat := 0x300
def SDL_KEYUP : Nat := 0x301
def SDL_MOUSEBUTTONDOWN : Nat := 0x401
def SDL_MOUSEBUTTONUP : Nat := 0x402

/-- The field of `SDL_MouseButtonEvent` that the game reads. -/
structure SDL_MouseButtonEvent where
  button : Nat := 0
deriving DecidableEq, Repr

/-- The fields of `SDL_KeyboardEvent` that the game reads: the `repeat` byte
and `keysym.sym`. -/
structure SDL_KeyboardEvent where
  rep : Nat := 0
  sym : Int := 0
deriving DecidableEq, Repr

/-- The union `SDL_Event`: the type tag with the two views the game reads. -/
structure SDL_Event where
  type : Nat
  button : SDL_MouseButtonEvent := {}
  key : SDL_KeyboardEvent := {}
deriving DecidableEq, Repr

/-- A `bool` stored into a `Uint8`. -/
def boolToU8 (b : Bool) : Nat := if b then 1 else 0

namespace Game

/-- `Game::mouseEvent`.  The `switch` has no `break` after
`case SDL_BUTTON_LEFT`, so a left-button event runs the statement of
`case SDL_BUTTON_RIGHT` as well before reaching `default: return`. -/
def mouseEvent (g : Game) (e : SDL_MouseButtonEvent) (pressed : Bool) : Game :=
  let c := g.controller
  let c1 : Controller :=
    if e.button = SDL_BUTTON_LEFT then { c with ml := boolToU8 pressed } else c
  let c2 : Controller :=
    if e.button = SDL_BUTTON_LEFT ∨ e.button = SDL_BUTTON_RIGHT then
      { c1 with mr := boolToU8 pressed }
    else c1
  { g with controller := c2 }

/-- An `assert(latch <= 1)` of `keyEvent`. -/
def checkLatch (latch : Nat) (g : Game) : Option Game :=
  if latch ≤ 1 then some g else none

/-- `Game::keyEvent`.  After the `repeat` test the player entry is fetched
with `player()` (which creates it when absent); the arrow keys write through
that reference. -/
def keyEvent (g : Game) (e : SDL_KeyboardEvent) (pressed : Bool) : Option Game :=
  if e.rep ≠ 0 then some g
  else
    let r := g.player
    let p := r.1
    let g1 := r.2
    let c := g1.controller
    if e.sym = SDLK_UP then
      some (g1.store 0 { p with loc := { p.loc with y := wrapInt (p.loc.y + 5) } })
    else if e.sym = SDLK_DOWN then
      some (g1.store 0 { p with loc := { p.loc with y := wrapInt (p.loc.y - 5) } })
    else if e.sym = SDLK_LEFT then
      some (g1.store 0 { p with loc := { p.loc with x := wrapInt (p.loc.x - 5) } })
    else if e.sym = SDLK_RIGHT then
      some (g1.store 0 { p with loc := { p.loc with x := wrapInt (p.loc.x + 5) } })
    else if e.sym = SDLK_a then
      checkLatch (boolToU8 pressed) { g1 with controller := { c with a := boolToU8 pressed } }
    else if e.sym = SDLK_s then
      checkLatch (boolToU8 pressed) { g1 with controller := { c with s := boolToU8 pressed } }
    else if e.sym = SDLK_d then
      checkLatch (boolToU8 pressed) { g1 with controller := { c with d := boolToU8 pressed } }
    else if e.sym = SDLK_w then
      checkLatch (boolToU8 pressed) { g1 with controller := { c with w := boolToU8 pressed } }
    else if e.sym = SDLK_LCTRL ∨ e.sym = SDLK_RCTRL then
      some { g1 with ctrl := pressed }
    else if e.sym = SDLK_c then
      if g1.ctrl then some { g1 with quit := true } else some g1
    else some g1

end Game

/-- One round of the `switch` in `consumeEvents`. -/
def dispatchEvent (g : Game) (e : SDL_Event) : Option Game :=
  if e.type = SDL_MOUSEBUTTONDOWN then some (g.mouseEvent e.button true)
  else if e.type = SDL_MOUSEBUTTONUP then some (g.mouseEvent e.button false)
  else if e.type = SDL_KEYDOWN then g.keyEvent e.key true
  else if e.type = SDL_KEYUP then g.keyEvent e.key false
  else if e.type = SDL_QUIT then some { g with quit := true }
  else some g

/-- The function `consumeEvents`: the queue that `SDL_PollEvent` drains is
the list `queue`. -/
def consumeEvents (g : Game) : List SDL_Event → Option Game
  | [] => some g
  | e :: queue => (dispatchEvent g e).bind (fun g1 => consumeEvents g1 queue)

/-! ## Render transform -/

/-- `Entity::displayLoc`.  The halves `sz.w / 2`, ... truncate toward zero and
cannot overflow; the subtractions, the negation and the additions are `int`
operations. -/
def Entity.displayLoc (e : Entity) (d : Display) (g : Game) : Loc :=
  let rel := e.loc.sub g.center
  let rel := { rel with y := wrapInt (-rel.y) }
  let rel := rel.sub ⟨Int.tdiv e.sz.w 2, Int.tdiv e.sz.h 2⟩
  rel.add ⟨Int.tdiv d.sz.w 2, Int.tdiv d.sz.h 2⟩

/-- `Entity::sdlRect`. -/
def Entity.sdlRect (e : Entity) (d : Display) (g : Game) : SDL_Rect :=
  let rel := e.displayLoc d g
  ⟨rel.x, rel.y, e.sz.w, e.sz.h⟩

/-- What `Entity::render` hands to SDL: the draw colour and the rectangle. -/
def Entity.render (e : Entity) (d : Display) (g : Game) : Color × SDL_Rect :=
  (e.color, e.sdlRect d g)

/-! ## Update, paint, set-up -/

/-- The function `update(g)`: the player's movement is advanced from the
controller latches (`Uint8` operands are promoted to `int` before the
subtraction), then its location is moved by the velocity. -/
def update (g : Game) : Option Game :=
  let c := g.controller
  let r := g.player
  let e := r.1
  let g1 := r.2
  (e.mv.update ⟨(c.d : Int) - (c.a : Int), (c.w : Int) - (c.s : Int)⟩).map
    (fun mv =>
      let e1 : Entity := { e with mv := mv }
      g1.store 0 { e1 with loc := e1.move })

/-- The function `paintScreen`: the new game state and, in drawing order, what
is rendered (the background entity, then the entries of the mapping). -/
def paintScreen (d : Display) (g : Game) : Game × List (Color × SDL_Rect) :=
  let g1 : Game := { g with eBack := { g.eBack with loc := g.center } }
  let g2 : Game := { g1 with eBack := { g1.eBack with sz := d.sz } }
  (g2, g2.eBack.render d g2 :: g2.entities.map (fun it => it.2.render d g2))

/-- Modelled from the spec: `ASSERT_EQ` comes from `test.h`, which is not
among the sources; by the error-handling section a violated programming
invariant is a fatal assertion failure, so the check aborts the run when the
two values differ. -/
def ASSERT_EQ (a b : Nat) : Option Unit :=
  if a = b then some () else none

/-- The C `assert`. -/
def cAssert (b : Bool) : Option Unit :=
  if b then some () else none

/-- The locals and the game state of `game()` at the call of `eventLoop`. -/
structure GameSetup where
  g : Game
  p : Entity
  e : Entity
deriving DecidableEq, Repr

/-- The set-up statements of `game()` from `Game g{}` up to the call of
`eventLoop`.  `auto p = g.newEntity()` and `auto e = g.newEntity()` declare
objects of type `Entity` (`auto` does not deduce a reference), so `p` and `e`
are copies of the map entries and the assignments to their fields change the
copies only. -/
def gameSetup : Option GameSetup := do
  let g : Game := {}
  let g : Game := { g with eBack := { g.eBack with color := ⟨0x99, 0x99, 0x99, 255⟩ } }
  let r := g.newEntity
  let p : Entity := r.1
  let g := r.2
  ASSERT_EQ p.id 0
  let p : Entity := { p with sz := ⟨50, 100⟩ }
  let p : Entity := { p with color := ⟨0xFF, 0x00, 0x00, 255⟩ }
  let r := g.newEntity
  let e : Entity := r.1
  let g := r.2
  ASSERT_EQ e.id 1
  let e : Entity := { e with sz := ⟨100, 200⟩ }
  let e : Entity := { e with loc := ⟨100, 100⟩ }
  let exp : Loc := ⟨100, 100⟩
  cAssert (e.loc.eq exp)
  cAssert (!(p.loc.eq exp))
  let e : Entity := { e with color := ⟨0x00, 0x00, 0xFF, 255⟩ }
  pure ⟨g, p, e⟩

/-- The state after `n` successive calls of `newEntity`. -/
def newEntities (g : Game) : Nat → Game
  | 0 => g
  | n + 1 => (newEntities g n).newEntity.2

/-- A run of update ticks: before each tick the controller holds the latches
`c` left by the event handlers, then `update` runs. -/
def updateTicks (g : Game) : List Controller → Option Game
  | [] => some g
  | c :: cs => (update { g with controller := c }).bind (fun g1 => updateTicks g1 cs)

/-- The body of the `while` loop of `eventLoop` for a frame whose pending
events are `queue`: `consumeEvents`, `update`, `paintScreen`, the frame delay
(which only waits) and `g.loop += 1` on the `Uint32` loop counter. -/
def frameStep (d : Display) (g : Game) (queue : List SDL_Event) : Option Game :=
  (consumeEvents g queue).bind (fun g1 =>
    (update g1).map (fun g2 =>
      let g3 := (paintScreen d g2).1
      { g3 with loop := (g3.loop + 1) % 2 ^ 32 }))

/-- The function `eventLoop`, run for the frames whose event queues are
listed: `while(not g.quit)` around the frame body. -/
def eventLoop (d : Display) (g : Game) : List (List SDL_Event) → Option Game
  | [] => some g
  | queue :: rest =>
    if g.quit then some g
    else (frameStep d g queue).bind (fun g1 => eventLoop d g1 rest)

/-- All six latches of a controller are 0 or 1. -/
def Controller.latched (c : Controller) : Prop :=
  c.w ≤ 1 ∧ c.a ≤ 1 ∧ c.s ≤ 1 ∧ c.d ≤ 1 ∧ c.ml ≤ 1 ∧ c.mr ≤ 1

instance (c : Controller) : Decidable c.latched := by
  unfold Controller.latched; infer_instance

/-! ## Bounded arithmetic: theorems -/

/-- Inside its assertion `bound` computes the clamp. -/
theorem bound_eq_clampTo (limit value : Int) (h : 0 ≤ limit) :
    bound limit value = some (clampTo limit value) := by
  unfold bound clampTo
  rw [if_pos (by omega)]
  by_cases hv : value > 0
  · rw [if_pos hv]
    by_cases hl : value > limit
    · rw [if_pos hl, min_eq_left (by omega)]
    · rw [if_neg hl, if_neg (by omega), min_eq_right (by omega)]
  · rw [if_neg hv, if_neg (by omega)]
    by_cases hl : value < -limit
    · rw [if_pos hl, max_eq_left (by omega)]
    · rw [if_neg hl, max_eq_right (by omega)]

/-- The clamp lies in the interval. -/
theorem clampTo_mem (limit value : Int) (h : 0 ≤ limit) :
    -limit ≤ clampTo limit value ∧ clampTo limit value ≤ limit := by
  unfold clampTo
  split_ifs <;> omega

/-- An exact value that is representable is not changed by the wrap. -/
theorem wrapInt_of_inInt (z : Int) (h : inInt z) : wrapInt z = z := by
  unfold inInt INT_MIN INT_MAX at h
  unfold wrapInt
  omega

/-- Wrapping the right operand of an addition does not change the wrapped sum. -/
theorem wrapInt_add_right (a b : Int) : wrapInt (a + wrapInt b) = wrapInt (a + b) := by
  unfold wrapInt
  omega

/-- Wrapping the left operand of an addition does not change the wrapped sum. -/
theorem wrapInt_add_left (a b : Int) : wrapInt (wrapInt a + b) = wrapInt (a + b) := by
  unfold wrapInt
  omega

/-- Wrapping the left operand of a subtraction does not change the wrapped
difference. -/
theorem wrapInt_sub_left (a b : Int) : wrapInt (wrapInt a - b) = wrapInt (a - b) := by
  unfold wrapInt
  omega

/-- Wrapping before a negation does not change the wrapped negation. -/
theorem wrapInt_neg (a : Int) : wrapInt (-wrapInt a) = wrapInt (-a) := by
  unfold wrapInt
  omega

/-- Half of an `int`, truncated toward zero, lies within half the range. -/
theorem tdiv_two_range (z : Int) (h : inInt z) :
    -1073741824 ≤ Int.tdiv z 2 ∧ Int.tdiv z 2 ≤ 1073741823 := by
  unfold inInt INT_MIN INT_MAX at h
  rcases le_or_lt 0 z with hz | hz
  · rw [Int.tdiv_eq_ediv hz (by decide)]
    omega
  · have hn : Int.tdiv z 2 = -((-z) / 2) := by
      rw [← Int.tdiv_eq_ediv (by omega) (by decide), Int.neg_tdiv, neg_neg]
    rw [hn]
    omega

/-- The function `subMag` never grows the magnitude. -/
theorem subMag_abs_le (value amount : Int) (h : 0 ≤ amount) :
    |subMag value amount| ≤ |value| := by
  unfold subMag wrapInt
  rcases le_or_lt value 0 with hv | hv
  · rw [abs_of_nonpos hv, abs_le]
    split_ifs <;> omega
  · rw [abs_of_pos hv, abs_le]
    split_ifs <;> omega

/-- The point `Entity::displayLoc` returns: the two coordinate formulas,
wrapped once (the wraps of the intermediate results cancel). -/
theorem Entity.displayLoc_eq (e : Entity) (d : Display) (g : Game) :
    e.displayLoc d g =
      ⟨wrapInt (e.loc.x - g.center.x - Int.tdiv e.sz.w 2 + Int.tdiv d.sz.w 2),
       wrapInt (-(e.loc.y - g.center.y) - Int.tdiv e.sz.h 2 + Int.tdiv d.sz.h 2)⟩ := by
  simp only [Entity.displayLoc, Loc.sub, Loc.add, wrapInt_add_left, wrapInt_sub_left,
    wrapInt_neg]

/-- C1: for every limit >= 0 and every value, `bound(limit, value)` returns
(its assertion holds) the clamp of value to [-limit, limit]: the result lies
in [-limit, limit], equals value when value is in that interval, equals limit
when value > limit and equals -limit when value < -limit. -/
theorem bound_is_clamp (limit value : Int) (h : 0 ≤ limit) :
    ∃ r, bound limit value = some r ∧ r = clampTo limit value ∧
      -limit ≤ r ∧ r ≤ limit ∧
      (-limit ≤ value → value ≤ limit → r = value) ∧
      (value > limit → r = limit) ∧
      (value < -limit → r = -limit) := by
  refine ⟨clampTo limit value, bound_eq_clampTo limit value h, rfl,
    (clampTo_mem limit value h).1, (clampTo_mem limit value h).2, ?_, ?_, ?_⟩
  · intro h1 h2
    unfold clampTo
    rw [if_neg (by omega), if_neg (by omega)]
  · intro h1
    unfold clampTo
    rw [if_pos h1]
  · intro h1
    unfold clampTo
    rw [if_neg (by omega), if_pos h1]

/-- Witness of C1 at `bound(10, 12)`. -/
theorem bound_is_clamp_witness :
    (0 : Int) ≤ 10 ∧ ∃ r, bound 10 12 = some r ∧ r = clampTo 10 12 ∧
      -10 ≤ r ∧ r ≤ 10 ∧
      (-10 ≤ (12 : Int) → (12 : Int) ≤ 10 → r = 12) ∧
      ((12 : Int) > 10 → r = 10) ∧
      ((12 : Int) < -10 → r = -10) :=
  ⟨by decide, bound_is_clamp 10 12 (by decide)⟩

/-- C3 (counterexample): at direction 1, velocity INT_MAX, acceleration 1,
maxVelocity 15 the sum wraps to INT_MIN and `updateVel` returns -15, not the
clamp 15 of velocity + acceleration * direction. -/
theorem updateVel_fails_at_int_max :
    (0 : Int) ≤ 15 ∧ (1 : Int) ≠ 0 ∧ inInt INT_MAX ∧
      updateVel 1 INT_MAX 1 15 = some (-15) ∧
      updateVel 1 INT_MAX 1 15 ≠ some (clampTo 15 (INT_MAX + 1 * 1)) := by
  decide

/-- C3 (amended): with maxVelocity >= 0, for a non-zero direction `updateVel`
returns the clamp to [-maxVelocity, maxVelocity] of the 32-bit wrap of
velocity + acceleration * direction, which is the clamp of
velocity + acceleration * direction itself whenever that sum is representable
as an `int`; for direction zero it returns `subMag(velocity, acceleration)`;
and the five values of the unit test hold. -/
theorem updateVel_spec (direction velocity acceleration maxVelocity : Int)
    (h : 0 ≤ maxVelocity) :
    (direction ≠ 0 →
        updateVel direction velocity acceleration maxVelocity =
          some (clampTo maxVelocity (wrapInt (velocity + acceleration * direction)))) ∧
      (direction ≠ 0 → inInt (velocity + acceleration * direction) →
        updateVel direction velocity acceleration maxVelocity =
          some (clampTo maxVelocity (velocity + acceleration * direction))) ∧
      updateVel 0 velocity acceleration maxVelocity =
        some (subMag velocity acceleration) ∧
      updateVel 0 10 12 15 = some 0 ∧
      updateVel 0 (-10) 12 15 = some 0 ∧
      updateVel 1 0 12 15 = some 12 ∧
      updateVel 1 12 12 15 = some 15 ∧
      updateVel (-1) 5 12 15 = some (-7) := by
  have hwrap : direction ≠ 0 →
      updateVel direction velocity acceleration maxVelocity =
        some (clampTo maxVelocity (wrapInt (velocity + acceleration * direction))) := by
    intro hd
    unfold updateVel
    rw [if_pos hd, wrapInt_add_right]
    exact bound_eq_clampTo maxVelocity _ h
  refine ⟨hwrap, ?_, ?_, by decide, by decide, by decide, by decide, by decide⟩
  · intro hd hr
    rw [hwrap hd, wrapInt_of_inInt _ hr]
  · unfold updateVel
    rw [if_neg (by simp)]

/-- Witness of C3 (amended) at `updateVel(-1, 5, 12, 15)`. -/
theorem updateVel_spec_witness :
    (0 : Int) ≤ 15 ∧ (-1 : Int) ≠ 0 ∧ inInt (5 + 12 * (-1)) ∧
      updateVel (-1) 5 12 15 = some (clampTo 15 (5 + 12 * (-1))) ∧
      clampTo 15 (5 + 12 * (-1)) = -7 :=
  ⟨by decide, by decide, by decide,
    (updateVel_spec (-1) 5 12 15 (by decide)).2.1 (by decide) (by decide), by decide⟩

/-! ## Render transform: theorems -/

/-- C4 (counterexample): for a default 50x100 entity at (0, INT_MIN), viewport
center (0, 0) and a 640x480 screen, `displayLoc` returns y = -2147483458,
while -(y - cy) - h/2 + H/2 = 2147483838. -/
theorem displayLoc_fails_at_int_min :
    ({ loc := ⟨0, INT_MIN⟩ } : Entity).displayLoc {} {} = ⟨295, -2147483458⟩ ∧
      ({ loc := ⟨0, INT_MIN⟩ } : Entity).displayLoc {} {} ≠
        ⟨0 - 0 - Int.tdiv 50 2 + Int.tdiv 640 2,
         -(INT_MIN - 0) - Int.tdiv 100 2 + Int.tdiv 480 2⟩ := by
  decide

/-- C4 (amended): `Entity::displayLoc` returns the 32-bit wraps of
x - cx - w/2 + W/2 and -(y - cy) - h/2 + H/2 (truncating division), and
`sdlRect` returns that point with the entity's width and height; whenever the
two values are representable as `int` the point is
(x - cx - w/2 + W/2, -(y - cy) - h/2 + H/2) itself; and an entity located at
the viewport center, for `int` sizes, gets the rectangle with top-left
(W/2 - w/2, H/2 - h/2). -/
theorem displayLoc_sdlRect_spec (e : Entity) (d : Display) (g : Game) :
    e.displayLoc d g =
        ⟨wrapInt (e.loc.x - g.center.x - Int.tdiv e.sz.w 2 + Int.tdiv d.sz.w 2),
         wrapInt (-(e.loc.y - g.center.y) - Int.tdiv e.sz.h 2 + Int.tdiv d.sz.h 2)⟩ ∧
      e.sdlRect d g =
        ⟨wrapInt (e.loc.x - g.center.x - Int.tdiv e.sz.w 2 + Int.tdiv d.sz.w 2),
         wrapInt (-(e.loc.y - g.center.y) - Int.tdiv e.sz.h 2 + Int.tdiv d.sz.h 2),
         e.sz.w, e.sz.h⟩ ∧
      (inInt (e.loc.x - g.center.x - Int.tdiv e.sz.w 2 + Int.tdiv d.sz.w 2) →
        inInt (-(e.loc.y - g.center.y) - Int.tdiv e.sz.h 2 + Int.tdiv d.sz.h 2) →
        e.displayLoc d g =
          ⟨e.loc.x - g.center.x - Int.tdiv e.sz.w 2 + Int.tdiv d.sz.w 2,
           -(e.loc.y - g.center.y) - Int.tdiv e.sz.h 2 + Int.tdiv d.sz.h 2⟩ ∧
        e.sdlRect d g =
          ⟨e.loc.x - g.center.x - Int.tdiv e.sz.w 2 + Int.tdiv d.sz.w 2,
           -(e.loc.y - g.center.y) - Int.tdiv e.sz.h 2 + Int.tdiv d.sz.h 2,
           e.sz.w, e.sz.h⟩) ∧
      (e.loc = g.center → inInt e.sz.w → inInt e.sz.h → inInt d.sz.w → inInt d.sz.h →
        e.sdlRect d g =
          ⟨Int.tdiv d.sz.w 2 - Int.tdiv e.sz.w 2,
           Int.tdiv d.sz.h 2 - Int.tdiv e.sz.h 2, e.sz.w, e.sz.h⟩) := by
  have hloc := Entity.displayLoc_eq e d g
  have hrect : e.sdlRect d g =
      ⟨wrapInt (e.loc.x - g.center.x - Int.tdiv e.sz.w 2 + Int.tdiv d.sz.w 2),
       wrapInt (-(e.loc.y - g.center.y) - Int.tdiv e.sz.h 2 + Int.tdiv d.sz.h 2),
       e.sz.w, e.sz.h⟩ := by
    unfold Entity.sdlRect
    rw [hloc]
  refine ⟨hloc, hrect, ?_, ?_⟩
  · intro hx hy
    rw [hloc, hrect, wrapInt_of_inInt _ hx, wrapInt_of_inInt _ hy]
    exact ⟨rfl, rfl⟩
  · intro hc hw hh hW hH
    have h1 := tdiv_two_range e.sz.w hw
    have h2 := tdiv_two_range e.sz.h hh
    have h3 := tdiv_two_range d.sz.w hW
    have h4 := tdiv_two_range d.sz.h hH
    have hx : wrapInt (e.loc.x - g.center.x - Int.tdiv e.sz.w 2 + Int.tdiv d.sz.w 2) =
        Int.tdiv d.sz.w 2 - Int.tdiv e.sz.w 2 := by
      rw [hc, wrapInt_of_inInt]
      · omega
      · unfold inInt INT_MIN INT_MAX
        omega
    have hy : wrapInt (-(e.loc.y - g.center.y) - Int.tdiv e.sz.h 2 + Int.tdiv d.sz.h 2) =
        Int.tdiv d.sz.h 2 - Int.tdiv e.sz.h 2 := by
      rw [hc, wrapInt_of_inInt]
      · omega
      · unfold inInt INT_MIN INT_MAX
        omega
    rw [hrect, hx, hy]

/-- Witness of C4 (amended): a 100x200 entity at (100, 100) seen from the
center (0, 0) of a 640x480 screen, and a 51x101 entity at the center (7, -3);
the odd sizes are halved by truncation to 25 and 50. -/
theorem displayLoc_sdlRect_spec_witness :
    (({ sz := ⟨100, 200⟩, loc := ⟨100, 100⟩ } : Entity).sdlRect {} {} = ⟨370, 40, 100, 200⟩) ∧
    (({ sz := ⟨51, 101⟩, loc := ⟨7, -3⟩ } : Entity).loc = ({ center := ⟨7, -3⟩ } : Game).center ∧
      ({ sz := ⟨51, 101⟩, loc := ⟨7, -3⟩ } : Entity).sdlRect {} { center := ⟨7, -3⟩ } =
        ⟨295, 190, 51, 101⟩) :=
  ⟨(((displayLoc_sdlRect_spec { sz := ⟨100, 200⟩, loc := ⟨100, 100⟩ } {} {}).2.2.1
      (by decide) (by decide)).2).trans (by decide),
    rfl, ((displayLoc_sdlRect_spec { sz := ⟨51, 101⟩, loc := ⟨7, -3⟩ } {}
      { center := ⟨7, -3⟩ }).2.2.2 rfl (by decide) (by decide) (by decide)
      (by decide)).trans (by decide)⟩

/-- C10: after `paintScreen` has set the background entity's location to the
viewport center and its size to the screen size, its `sdlRect` is
x = 0, y = 0, width = W, height = H, for every center and every screen size;
this rectangle is the first one rendered. -/
theorem paintScreen_background_fills (d : Display) (g : Game) :
    (paintScreen d g).1.eBack.loc = g.center ∧
      (paintScreen d g).1.eBack.sz = d.sz ∧
      (paintScreen d g).1.eBack.sdlRect d (paintScreen d g).1 = ⟨0, 0, d.sz.w, d.sz.h⟩ ∧
      (paintScreen d g).2.head? = some (g.eBack.color, ⟨0, 0, d.sz.w, d.sz.h⟩) := by
  have hzero : wrapInt 0 = 0 := by decide
  have hrect : (paintScreen d g).1.eBack.sdlRect d (paintScreen d g).1 =
      ⟨0, 0, d.sz.w, d.sz.h⟩ := by
    unfold Entity.sdlRect
    rw [Entity.displayLoc_eq]
    simp only [paintScreen, sub_self, neg_zero, zero_sub, neg_add_cancel, hzero]
  refine ⟨rfl, rfl, hrect, ?_⟩
  have hhead : (paintScreen d g).2.head? =
      some (g.eBack.color, (paintScreen d g).1.eBack.sdlRect d (paintScreen d g).1) := rfl
  rw [hhead, hrect]

/-! ## The entity mapping: lemmas -/

/-- Reading after `assign`. -/
theorem EntityMap.find_assign (m : EntityMap) (k : Nat) (e : Entity) (j : Nat) :
    EntityMap.find (EntityMap.assign m k e) j =
      if k = j then some e else EntityMap.find m j := by
  induction m with
  | nil => simp [EntityMap.assign, EntityMap.find]
  | cons hd tl ih =>
    obtain ⟨k0, e0⟩ := hd
    by_cases h0 : k0 = k
    · subst h0
      by_cases hj : k0 = j <;> simp [EntityMap.assign, EntityMap.find, hj]
    · by_cases hj : k0 = j
      · subst hj
        have hk : ¬ k = k0 := fun h => h0 h.symm
        simp [EntityMap.assign, EntityMap.find, h0, hk]
      · simp [EntityMap.assign, EntityMap.find, h0, hj, ih]

/-- Reading after `operator[]`. -/
theorem EntityMap.find_index (m : EntityMap) (k j : Nat) :
    EntityMap.find (EntityMap.index m k).2 j =
      if k = j then some (EntityMap.index m k).1 else EntityMap.find m j := by
  unfold EntityMap.index
  cases h : EntityMap.find m k with
  | none => simp [EntityMap.find_assign]
  | some e =>
    by_cases hj : k = j
    · subst hj
      simp [h]
    · simp [hj]

/-- An entry that is present is what `operator[]` returns, and the map stays. -/
theorem EntityMap.index_of_find (m : EntityMap) (k : Nat) (e : Entity)
    (h : EntityMap.find m k = some e) : EntityMap.index m k = (e, m) := by
  unfold EntityMap.index
  rw [h]

/-- Storing under an absent key adds the entry at the end. -/
theorem EntityMap.assign_of_absent (m : EntityMap) (k : Nat) (e : Entity)
    (h : EntityMap.find m k = none) : EntityMap.assign m k e = m ++ [(k, e)] := by
  induction m with
  | nil => rfl
  | cons hd tl ih =>
    obtain ⟨k0, e0⟩ := hd
    by_cases h0 : k0 = k
    · simp [EntityMap.find, h0] at h
    · simp only [EntityMap.find, h0, if_false] at h
      simp [EntityMap.assign, h0, ih h]

/-- Storing again under a key that was added at the end replaces that entry. -/
theorem EntityMap.assign_last (m : EntityMap) (k : Nat) (e0 e : Entity)
    (h : EntityMap.find m k = none) :
    EntityMap.assign (m ++ [(k, e0)]) k e = m ++ [(k, e)] := by
  induction m with
  | nil => simp [EntityMap.assign]
  | cons hd tl ih =>
    obtain ⟨k0, e1⟩ := hd
    by_cases h0 : k0 = k
    · simp [EntityMap.find, h0] at h
    · simp only [EntityMap.find, h0, if_false] at h
      simp [EntityMap.assign, h0, ih h]

/-- Reading in a concatenation. -/
theorem EntityMap.find_append (m m1 : EntityMap) (j : Nat) :
    EntityMap.find (m ++ m1) j =
      if (EntityMap.find m j).isSome then EntityMap.find m j else EntityMap.find m1 j := by
  induction m with
  | nil => simp [EntityMap.find]
  | cons hd tl ih =>
    obtain ⟨k0, e0⟩ := hd
    by_cases h0 : k0 = j
    · simp [EntityMap.find, h0]
    · simp [EntityMap.find, h0, ih]

/-- Reading in the map that holds the default entity `k` under each `k < n`. -/
theorem EntityMap.find_range (n j : Nat) :
    EntityMap.find ((List.range n).map (fun k => (k, ({ id := k } : Entity)))) j =
      if j < n then some { id := j } else none := by
  induction n with
  | zero => simp [EntityMap.find]
  | succ n ih =>
    rw [List.range_succ, List.map_append, EntityMap.find_append, ih]
    by_cases h1 : j < n
    · simp [h1, Nat.lt_succ_of_lt h1]
    · by_cases h2 : n = j
      · subst h2
        simp [EntityMap.find]
      · have h3 : ¬ j < n + 1 := by omega
        simp [h1, h2, h3, EntityMap.find]

/-! ## Entity creation: theorems -/

/-- One call of `newEntity` on a state whose mapping holds the default entity
`k` under each `k < n` and whose counter is `n`. -/
theorem Game.newEntity_step (g : Game) (n : Nat) (hid : g.m_nextId = n)
    (hm : g.entities = (List.range n).map (fun k => (k, ({ id := k } : Entity)))) :
    g.newEntity.1 = { id := n } ∧ g.newEntity.2.m_nextId = n + 1 ∧
      g.newEntity.2.entities =
        (List.range (n + 1)).map (fun k => (k, ({ id := k } : Entity))) := by
  have habs : EntityMap.find g.entities n = none := by
    rw [hm, EntityMap.find_range]
    simp
  have hslot : EntityMap.index g.entities n =
      ({}, g.entities ++ [(n, ({} : Entity))]) := by
    unfold EntityMap.index
    rw [habs]
    simp [EntityMap.assign_of_absent _ _ _ habs]
  have hfin : EntityMap.find (g.entities ++ [(n, ({ id := n } : Entity))]) n =
      some { id := n } := by
    rw [EntityMap.find_append, habs]
    simp [EntityMap.find]
  have hnew : g.newEntity =
      ({ id := n }, { g with m_nextId := n + 1,
                             entities := g.entities ++ [(n, ({ id := n } : Entity))] }) := by
    simp only [Game.newEntity, Game.nextId, hid, hslot,
      EntityMap.assign_last _ _ _ _ habs, EntityMap.index_of_find _ _ _ hfin]
  rw [hnew]
  refine ⟨rfl, rfl, ?_⟩
  simp only [hm, List.range_succ, List.map_append, List.map_cons, List.map_nil]

/-- The state after `n` calls of `newEntity` on a fresh `Game`. -/
theorem newEntities_fresh (n : Nat) :
    (newEntities {} n).m_nextId = n ∧
      (newEntities {} n).entities =
        (List.range n).map (fun k => (k, ({ id := k } : Entity))) := by
  induction n with
  | zero => exact ⟨rfl, rfl⟩
  | succ n ih =>
    have h := Game.newEntity_step (newEntities {} n) n ih.1 ih.2
    exact ⟨h.2.1, h.2.2⟩

/-- C5: starting from a fresh `Game`, for every n >= 1 the i-th call of
`newEntity` (i = 0 .. n-1) returns an entity with id i and stores it under
key i; after n calls the keys of the mapping are exactly 0 .. n-1 (each once),
every stored entity's id equals its key, the entry under key i is still the
entity the i-th call returned, and `player()` returns the entity with id 0,
the one the first call created, without changing the state. -/
theorem newEntity_sequential_ids (n : Nat) (hn : 1 ≤ n) :
    (∀ i, i < n →
        (newEntities {} i).newEntity.1.id = i ∧
        EntityMap.find (newEntities {} i).newEntity.2.entities i =
          some (newEntities {} i).newEntity.1 ∧
        EntityMap.find (newEntities {} n).entities i =
          some (newEntities {} i).newEntity.1) ∧
      (∀ k, (EntityMap.find (newEntities {} n).entities k).isSome ↔ k < n) ∧
      ((newEntities {} n).entities.map Prod.fst).Perm (List.range n) ∧
      (∀ k e, EntityMap.find (newEntities {} n).entities k = some e → e.id = k) ∧
      (newEntities {} n).player.1.id = 0 ∧
      (newEntities {} n).player.1 = (Game.newEntity {}).1 ∧
      (newEntities {} n).player.2 = newEntities {} n := by
  have hfind : ∀ k, EntityMap.find (newEntities {} n).entities k =
      if k < n then some { id := k } else none := by
    intro k
    rw [(newEntities_fresh n).2, EntityMap.find_range]
  have hcall : ∀ i, (newEntities {} i).newEntity.1 = { id := i } ∧
      EntityMap.find (newEntities {} i).newEntity.2.entities i = some { id := i } := by
    intro i
    have h := Game.newEntity_step (newEntities {} i) i (newEntities_fresh i).1
      (newEntities_fresh i).2
    refine ⟨h.1, ?_⟩
    rw [h.2.2, EntityMap.find_range]
    simp
  have hpl : (newEntities {} n).player = ({ id := 0 }, newEntities {} n) := by
    have h0 : EntityMap.find (newEntities {} n).entities 0 = some { id := 0 } := by
      rw [hfind 0]
      simp
      omega
    simp only [Game.player, EntityMap.index_of_find _ _ _ h0]
  refine ⟨?_, ?_, ?_, ?_, ?_, ?_, ?_⟩
  · intro i hi
    refine ⟨?_, ?_, ?_⟩
    · rw [(hcall i).1]
    · rw [(hcall i).2, (hcall i).1]
    · rw [hfind i, if_pos hi, (hcall i).1]
  · intro k
    rw [hfind k]
    by_cases hk : k < n <;> simp [hk]
  · rw [(newEntities_fresh n).2, List.map_map]
    have hfun : (Prod.fst ∘ fun k => (k, ({ id := k } : Entity))) = id := rfl
    rw [hfun, List.map_id]
  · intro k e hke
    rw [hfind k] at hke
    by_cases hk : k < n
    · rw [if_pos hk] at hke
      cases hke
      rfl
    · rw [if_neg hk] at hke
      cases hke
  · rw [hpl]
  · rw [hpl]
    rfl
  · rw [hpl]

/-- Witness of C5 for three calls. -/
theorem newEntity_sequential_ids_witness :
    1 ≤ 3 ∧ (newEntities {} 2).newEntity.1.id = 2 ∧
      (newEntities {} 3).player.1 = (Game.newEntity {}).1 :=
  ⟨by decide, ((newEntity_sequential_ids 3 (by decide)).1 2 (by decide)).1,
    (newEntity_sequential_ids 3 (by decide)).2.2.2.2.2.1⟩

/-! ## Set-up of `game()`: what the mapping holds -/

/-- C6 (evaluation of the code): the set-up of `game()` passes its assertions,
and the mapping then holds exactly the keys 0 and 1, but BOTH entries have the
default size 50x100 and the default location (0, 0): the size 100x200 and the
location (100, 100) were written to the local copy `e` only.  With an empty
event queue the first frame renders the two entities with the same
rectangle. -/
theorem gameSetup_entries_keep_defaults :
    ∃ s, gameSetup = some s ∧
      s.g.entities.map Prod.fst = [0, 1] ∧
      EntityMap.find s.g.entities 0 = some { id := 0, sz := ⟨50, 100⟩, loc := ⟨0, 0⟩ } ∧
      EntityMap.find s.g.entities 1 = some { id := 1, sz := ⟨50, 100⟩, loc := ⟨0, 0⟩ } ∧
      s.e.id = 1 ∧ s.e.sz = ⟨100, 200⟩ ∧ s.e.loc = ⟨100, 100⟩ ∧
      ((consumeEvents s.g []).bind update).map
          (fun g1 => (paintScreen {} g1).2.map Prod.snd) =
        some [⟨0, 0, 640, 480⟩, ⟨295, 190, 50, 100⟩, ⟨295, 190, 50, 100⟩] :=
  ⟨_, rfl, by decide, by decide, by decide, by decide, by decide, by decide, by decide⟩

/-! ## Input handlers: theorems -/

/-- C7 (evaluation of the code): a left-button event sets BOTH mouse latches,
because the `switch` falls through from `case SDL_BUTTON_LEFT` into
`case SDL_BUTTON_RIGHT`; on a fresh game a left press turns `mr` from 0 to 1.
The rest of the claim holds: a right-button event sets `mr` only, any other
button changes no latch, and no field outside the controller changes. -/
theorem mouseEvent_left_sets_both_latches :
    (({} : Game).controller.mr = 0 ∧
      (Game.mouseEvent {} ⟨SDL_BUTTON_LEFT⟩ true).controller.mr = 1) ∧
    (∀ (g : Game) (pressed : Bool),
      (g.mouseEvent ⟨SDL_BUTTON_LEFT⟩ pressed).controller =
        { g.controller with ml := boolToU8 pressed, mr := boolToU8 pressed }) ∧
    (∀ (g : Game) (pressed : Bool),
      (g.mouseEvent ⟨SDL_BUTTON_RIGHT⟩ pressed).controller =
        { g.controller with mr := boolToU8 pressed }) ∧
    (∀ (g : Game) (e : SDL_MouseButtonEvent) (pressed : Bool),
      e.button ≠ SDL_BUTTON_LEFT → e.button ≠ SDL_BUTTON_RIGHT →
        g.mouseEvent e pressed = g) ∧
    (∀ (g : Game) (e : SDL_MouseButtonEvent) (pressed : Bool),
      g.mouseEvent e pressed = { g with controller := (g.mouseEvent e pressed).controller } ∧
      (g.mouseEvent e pressed).controller.w = g.controller.w ∧
      (g.mouseEvent e pressed).controller.a = g.controller.a ∧
      (g.mouseEvent e pressed).controller.s = g.controller.s ∧
      (g.mouseEvent e pressed).controller.d = g.controller.d) := by
  refine ⟨⟨rfl, by decide⟩, ?_, ?_, ?_, ?_⟩
  · intro g pressed
    simp [Game.mouseEvent]
  · intro g pressed
    simp [Game.mouseEvent, SDL_BUTTON_LEFT, SDL_BUTTON_RIGHT]
  · intro g e pressed h1 h2
    simp [Game.mouseEvent, h1, h2]
  · intro g e pressed
    refine ⟨rfl, ?_, ?_, ?_, ?_⟩ <;>
      (unfold Game.mouseEvent; split_ifs <;> rfl)

/-- The assertion after a latch assignment in `keyEvent` holds: the latch was
assigned a `bool`. -/
theorem Game.checkLatch_bool (pressed : Bool) (g : Game) :
    Game.checkLatch (boolToU8 pressed) g = some g := by
  cases pressed <;> rfl

/-- C8: with the repeat flag set `keyEvent` returns the game state unchanged;
otherwise, for each of the keys w, a, s, d, it returns normally and the latch
of that key is 1 when pressed and 0 when released, while the other three key
latches and both mouse latches keep their values. -/
theorem keyEvent_latches (g : Game) (e : SDL_KeyboardEvent) (pressed : Bool) :
    (e.rep ≠ 0 → g.keyEvent e pressed = some g) ∧
    (e.rep = 0 → e.sym = SDLK_w → ∃ g1, g.keyEvent e pressed = some g1 ∧
      g1.controller.w = (if pressed then 1 else 0) ∧
      g1.controller.a = g.controller.a ∧ g1.controller.s = g.controller.s ∧
      g1.controller.d = g.controller.d ∧
      g1.controller.ml = g.controller.ml ∧ g1.controller.mr = g.controller.mr) ∧
    (e.rep = 0 → e.sym = SDLK_a → ∃ g1, g.keyEvent e pressed = some g1 ∧
      g1.controller.a = (if pressed then 1 else 0) ∧
      g1.controller.w = g.controller.w ∧ g1.controller.s = g.controller.s ∧
      g1.controller.d = g.controller.d ∧
      g1.controller.ml = g.controller.ml ∧ g1.controller.mr = g.controller.mr) ∧
    (e.rep = 0 → e.sym = SDLK_s → ∃ g1, g.keyEvent e pressed = some g1 ∧
      g1.controller.s = (if pressed then 1 else 0) ∧
      g1.controller.w = g.controller.w ∧ g1.controller.a = g.controller.a ∧
      g1.controller.d = g.controller.d ∧
      g1.controller.ml = g.controller.ml ∧ g1.controller.mr = g.controller.mr) ∧
    (e.rep = 0 → e.sym = SDLK_d → ∃ g1, g.keyEvent e pressed = some g1 ∧
      g1.controller.d = (if pressed then 1 else 0) ∧
      g1.controller.w = g.controller.w ∧ g1.controller.a = g.controller.a ∧
      g1.controller.s = g.controller.s ∧
      g1.controller.ml = g.controller.ml ∧ g1.controller.mr = g.controller.mr) := by
  refine ⟨?_, ?_, ?_, ?_, ?_⟩
  · intro hr
    unfold Game.keyEvent
    rw [if_pos hr]
  · intro hr hs
    refine ⟨{ g.player.2 with
      controller := { g.player.2.controller with w := boolToU8 pressed } }, ?_, rfl,
      rfl, rfl, rfl, rfl, rfl⟩
    simp [Game.keyEvent, hr, hs, Game.checkLatch_bool, SDLK_w, SDLK_UP, SDLK_DOWN,
      SDLK_LEFT, SDLK_RIGHT, SDLK_a, SDLK_s, SDLK_d]
  · intro hr hs
    refine ⟨{ g.player.2 with
      controller := { g.player.2.controller with a := boolToU8 pressed } }, ?_, rfl,
      rfl, rfl, rfl, rfl, rfl⟩
    simp [Game.keyEvent, hr, hs, Game.checkLatch_bool, SDLK_UP, SDLK_DOWN,
      SDLK_LEFT, SDLK_RIGHT, SDLK_a]
  · intro hr hs
    refine ⟨{ g.player.2 with
      controller := { g.player.2.controller with s := boolToU8 pressed } }, ?_, rfl,
      rfl, rfl, rfl, rfl, rfl⟩
    simp [Game.keyEvent, hr, hs, Game.checkLatch_bool, SDLK_UP, SDLK_DOWN,
      SDLK_LEFT, SDLK_RIGHT, SDLK_a, SDLK_s]
  · intro hr hs
    refine ⟨{ g.player.2 with
      controller := { g.player.2.controller with d := boolToU8 pressed } }, ?_, rfl,
      rfl, rfl, rfl, rfl, rfl⟩
    simp [Game.keyEvent, hr, hs, Game.checkLatch_bool, SDLK_UP, SDLK_DOWN,
      SDLK_LEFT, SDLK_RIGHT, SDLK_a, SDLK_s, SDLK_d]

/-- Witness of C8: a repeated key-down of `a` on the state after set-up changes
nothing, and a first key-down of `a` on a fresh game sets the `a` latch. -/
theorem keyEvent_latches_witness :
    ((1 : Nat) ≠ 0 ∧ (newEntities {} 2).keyEvent ⟨1, SDLK_a⟩ true = some (newEntities {} 2)) ∧
    ((0 : Nat) = 0 ∧ SDLK_a = SDLK_a ∧ ∃ g1, Game.keyEvent {} ⟨0, SDLK_a⟩ true = some g1 ∧
      g1.controller.a = (if true then 1 else 0) ∧
      g1.controller.w = ({} : Game).controller.w ∧ g1.controller.s = ({} : Game).controller.s ∧
      g1.controller.d = ({} : Game).controller.d ∧
      g1.controller.ml = ({} : Game).controller.ml ∧
      g1.controller.mr = ({} : Game).controller.mr) :=
  ⟨⟨by decide, (keyEvent_latches (newEntities {} 2) ⟨1, SDLK_a⟩ true).1 (by decide)⟩,
    ⟨rfl, rfl, (keyEvent_latches {} ⟨0, SDLK_a⟩ true).2.2.1 rfl rfl⟩⟩

/-! ## Velocity bound: theorems -/

/-- One `updateVel` keeps a velocity component within the max speed, whatever
the direction. -/
theorem updateVel_bounded (dir v a maxV : Int) (ha : 0 ≤ a) (hm : 0 ≤ maxV)
    (hv : |v| ≤ maxV) : ∃ r, updateVel dir v a maxV = some r ∧ |r| ≤ maxV := by
  by_cases hd : dir = 0
  · refine ⟨subMag v a, ?_, le_trans (subMag_abs_le v a ha) hv⟩
    unfold updateVel
    rw [if_neg (by simp [hd])]
  · refine ⟨clampTo maxV (wrapInt (v + wrapInt (a * dir))), ?_, ?_⟩
    · unfold updateVel
      rw [if_pos hd]
      exact bound_eq_clampTo maxV _ hm
    · exact abs_le.mpr (clampTo_mem maxV _ hm)

/-- `Movement::update` passes its assertions and keeps both velocity
components within the max speed; `a` and `maxV` are not changed. -/
theorem Movement.update_bounded (m : Movement) (dir : Loc) (ha : 0 ≤ m.a)
    (hm : 0 ≤ m.maxV) (hvx : |m.v.x| ≤ m.maxV) (hvy : |m.v.y| ≤ m.maxV)
    (hdx : |dir.x| ≤ 1) (hdy : |dir.y| ≤ 1) :
    ∃ m1, m.update dir = some m1 ∧ m1.a = m.a ∧ m1.maxV = m.maxV ∧
      |m1.v.x| ≤ m.maxV ∧ |m1.v.y| ≤ m.maxV := by
  obtain ⟨rx, hrx, hbx⟩ := updateVel_bounded dir.x m.v.x m.a m.maxV ha hm hvx
  obtain ⟨ry, hry, hby⟩ := updateVel_bounded dir.y m.v.y m.a m.maxV ha hm hvy
  refine ⟨⟨⟨rx, ry⟩, m.a, m.maxV⟩, ?_, rfl, rfl, hbx, hby⟩
  have hwx : wrapInt |dir.x| ≤ 1 := by
    rw [wrapInt_of_inInt]
    · exact hdx
    · have h0 := abs_nonneg dir.x
      unfold inInt INT_MIN INT_MAX
      omega
  have hwy : wrapInt |dir.y| ≤ 1 := by
    rw [wrapInt_of_inInt]
    · exact hdy
    · have h0 := abs_nonneg dir.y
      unfold inInt INT_MIN INT_MAX
      omega
  unfold Movement.update
  rw [if_pos hwx, if_pos hwy]
  simp [hrx, hry]

/-- The player entry after a write through the player reference. -/
theorem Game.player_store (g : Game) (e : Entity) :
    (g.store 0 e).player = (e, g.store 0 e) := by
  have h : EntityMap.find (g.store 0 e).entities 0 = some e := by
    simp [Game.store, EntityMap.find_assign]
  simp only [Game.player, EntityMap.index_of_find _ _ _ h]

/-- One `update` tick with latches in {0, 1}: the assertions hold, and a
player whose movement has `a = 3`, `maxV = 15` and velocity components in
[-15, 15] keeps these. -/
theorem update_keeps_bound (g : Game) (hc : g.controller.latched)
    (hinv : g.player.1.mv.a = 3 ∧ g.player.1.mv.maxV = 15 ∧
      |g.player.1.mv.v.x| ≤ 15 ∧ |g.player.1.mv.v.y| ≤ 15) :
    ∃ g1, update g = some g1 ∧
      g1.player.1.mv.a = 3 ∧ g1.player.1.mv.maxV = 15 ∧
      |g1.player.1.mv.v.x| ≤ 15 ∧ |g1.player.1.mv.v.y| ≤ 15 := by
  obtain ⟨hw, ha, hs, hd, _, _⟩ := hc
  obtain ⟨h3, h15, hx, hy⟩ := hinv
  have hdx : |((g.controller.d : Int) - (g.controller.a : Int))| ≤ 1 := by
    rw [abs_le]; omega
  have hdy : |((g.controller.w : Int) - (g.controller.s : Int))| ≤ 1 := by
    rw [abs_le]; omega
  obtain ⟨m1, hm1, ha1, hmax1, hx1, hy1⟩ :=
    Movement.update_bounded g.player.1.mv
      ⟨(g.controller.d : Int) - (g.controller.a : Int),
        (g.controller.w : Int) - (g.controller.s : Int)⟩
      (by rw [h3]; decide) (by rw [h15]; decide) (by rw [h15]; exact hx)
      (by rw [h15]; exact hy) hdx hdy
  refine ⟨g.player.2.store 0
    { ({ g.player.1 with mv := m1 } : Entity) with
      loc := ({ g.player.1 with mv := m1 } : Entity).move }, ?_, ?_⟩
  · unfold update
    simp only [hm1, Option.map_some']
  · rw [Game.player_store]
    refine ⟨ha1.trans h3, hmax1.trans h15, ?_, ?_⟩
    · rw [h15] at hx1; exact hx1
    · rw [h15] at hy1; exact hy1

/-- Any run of update ticks with latches in {0, 1} passes every assertion and
keeps the player's movement invariant. -/
theorem updateTicks_keeps_bound (cs : List Controller) :
    ∀ g : Game, (∀ c ∈ cs, c.latched) →
      (g.player.1.mv.a = 3 ∧ g.player.1.mv.maxV = 15 ∧
        |g.player.1.mv.v.x| ≤ 15 ∧ |g.player.1.mv.v.y| ≤ 15) →
      ∃ g1, updateTicks g cs = some g1 ∧
        g1.player.1.mv.a = 3 ∧ g1.player.1.mv.maxV = 15 ∧
        |g1.player.1.mv.v.x| ≤ 15 ∧ |g1.player.1.mv.v.y| ≤ 15 := by
  induction cs with
  | nil =>
    intro g _ hinv
    exact ⟨g, rfl, hinv⟩
  | cons c cs ih =>
    intro g hcs hinv
    obtain ⟨g1, hg1, hinv1⟩ :=
      update_keeps_bound { g with controller := c } (hcs c (List.mem_cons_self c cs)) hinv
    obtain ⟨g2, hg2, hinv2⟩ :=
      ih g1 (fun c1 hc1 => hcs c1 (List.mem_cons_of_mem c hc1)) hinv1
    refine ⟨g2, ?_, hinv2⟩
    unfold updateTicks
    rw [hg1]
    exact hg2

/-- C9: a `Movement` with a >= 0, maxV >= 0 and both velocity components
within maxV in magnitude, updated with a direction whose components are in
{-1, 0, 1}, passes the assertions of `Movement::update` and still has both
velocity components within maxV in magnitude; and from a player with the
default at-rest movement (a = 3, maxV = 15), any sequence of update ticks with
controller latches in {0, 1} runs without a failing assertion and leaves the
player's velocity components in [-15, 15]. -/
theorem velocity_stays_bounded (m : Movement) (dir : Loc)
    (ha : 0 ≤ m.a) (hm : 0 ≤ m.maxV)
    (hvx : |m.v.x| ≤ m.maxV) (hvy : |m.v.y| ≤ m.maxV)
    (hdx : dir.x = -1 ∨ dir.x = 0 ∨ dir.x = 1)
    (hdy : dir.y = -1 ∨ dir.y = 0 ∨ dir.y = 1)
    (g : Game) (hg : g.player.1.mv = {})
    (cs : List Controller) (hcs : ∀ c ∈ cs, c.latched) :
    (∃ m1, m.update dir = some m1 ∧ m1.a = m.a ∧ m1.maxV = m.maxV ∧
      |m1.v.x| ≤ m.maxV ∧ |m1.v.y| ≤ m.maxV) ∧
    (∃ g1, updateTicks g cs = some g1 ∧
      -15 ≤ g1.player.1.mv.v.x ∧ g1.player.1.mv.v.x ≤ 15 ∧
      -15 ≤ g1.player.1.mv.v.y ∧ g1.player.1.mv.v.y ≤ 15) := by
  constructor
  · apply Movement.update_bounded m dir ha hm hvx hvy
    · rw [abs_le]; omega
    · rw [abs_le]; omega
  · obtain ⟨g1, hg1, _, _, hx, hy⟩ :=
      updateTicks_keeps_bound cs g hcs (by rw [hg]; decide)
    exact ⟨g1, hg1, (abs_le.mp hx).1, (abs_le.mp hx).2, (abs_le.mp hy).1, (abs_le.mp hy).2⟩

/-- Witness of C9: a movement at (15, -14) pushed further right and up, and
six ticks holding `d` from the state after two `newEntity` calls (the sixth
tick is the one that would pass 15 without the clamp). -/
theorem velocity_stays_bounded_witness :
    (({ v := ⟨15, -14⟩ } : Movement).update ⟨1, 1⟩ = some { v := ⟨15, -11⟩ }) ∧
    ((updateTicks (newEntities {} 2) (List.replicate 6 { d := 1 })).map
      (fun g1 => g1.player.1.mv.v) = some ⟨15, 0⟩) ∧
    ((∃ m1, ({ v := ⟨15, -14⟩ } : Movement).update ⟨1, 1⟩ = some m1 ∧
      m1.a = 3 ∧ m1.maxV = 15 ∧ |m1.v.x| ≤ 15 ∧ |m1.v.y| ≤ 15) ∧
    (∃ g1, updateTicks (newEntities {} 2) (List.replicate 6 { d := 1 }) = some g1 ∧
      -15 ≤ g1.player.1.mv.v.x ∧ g1.player.1.mv.v.x ≤ 15 ∧
      -15 ≤ g1.player.1.mv.v.y ∧ g1.player.1.mv.v.y ≤ 15)) :=
  ⟨by decide, by decide,
    velocity_stays_bounded { v := ⟨15, -14⟩ } ⟨1, 1⟩ (by decide) (by decide) (by decide)
      (by decide) (by decide) (by decide) (newEntities {} 2) rfl
      (List.replicate 6 { d := 1 }) (by decide)⟩

/-! ## The whole loop: the latches and the velocity bound are invariants -/

/-- A second `operator[]` on the same key returns the same entry and changes
nothing. -/
theorem EntityMap.index_index (m : EntityMap) (k : Nat) :
    EntityMap.index (EntityMap.index m k).2 k = EntityMap.index m k := by
  have h : EntityMap.find (EntityMap.index m k).2 k = some (EntityMap.index m k).1 := by
    simp [EntityMap.find_index]
  rw [EntityMap.index_of_find _ _ _ h]

/-- Calling `player()` a second time returns the same entity and changes
nothing. -/
theorem Game.player_player (g : Game) : g.player.2.player = (g.player.1, g.player.2) := by
  simp only [Game.player, EntityMap.index_index]

/-- A `bool` stored in a latch is 0 or 1. -/
theorem boolToU8_le_one (b : Bool) : boolToU8 b ≤ 1 := by
  cases b <;> decide

/-- `mouseEvent` keeps the latches in {0, 1} and does not touch the player. -/
theorem Game.mouseEvent_inv (g : Game) (e : SDL_MouseButtonEvent) (pressed : Bool)
    (hc : g.controller.latched) :
    (g.mouseEvent e pressed).controller.latched ∧
      (g.mouseEvent e pressed).player.1 = g.player.1 := by
  obtain ⟨hw, ha, hs, hd, hml, hmr⟩ := hc
  have hb := boolToU8_le_one pressed
  refine ⟨?_, rfl⟩
  unfold Game.mouseEvent Controller.latched
  split_ifs <;> exact ⟨hw, ha, hs, hd, by assumption, by assumption⟩

/-- `keyEvent` returns, keeps the latches in {0, 1} and leaves the player's
movement as it is. -/
theorem Game.keyEvent_inv (g : Game) (e : SDL_KeyboardEvent) (pressed : Bool)
    (hc : g.controller.latched) :
    ∃ g1, g.keyEvent e pressed = some g1 ∧ g1.controller.latched ∧
      g1.player.1.mv = g.player.1.mv := by
  obtain ⟨hw, ha, hs, hd, hml, hmr⟩ := hc
  have hb := boolToU8_le_one pressed
  have hpp := Game.player_player g
  have hkeep : g.player.2.player.1.mv = g.player.1.mv := congrArg (fun r => r.1.mv) hpp
  simp only [Game.keyEvent]
  by_cases hr : e.rep ≠ 0
  · rw [if_pos hr]
    exact ⟨g, rfl, ⟨hw, ha, hs, hd, hml, hmr⟩, rfl⟩
  rw [if_neg hr]
  by_cases h1 : e.sym = SDLK_UP
  · rw [if_pos h1]
    exact ⟨_, rfl, ⟨hw, ha, hs, hd, hml, hmr⟩, by rw [Game.player_store]⟩
  rw [if_neg h1]
  by_cases h2 : e.sym = SDLK_DOWN
  · rw [if_pos h2]
    exact ⟨_, rfl, ⟨hw, ha, hs, hd, hml, hmr⟩, by rw [Game.player_store]⟩
  rw [if_neg h2]
  by_cases h3 : e.sym = SDLK_LEFT
  · rw [if_pos h3]
    exact ⟨_, rfl, ⟨hw, ha, hs, hd, hml, hmr⟩, by rw [Game.player_store]⟩
  rw [if_neg h3]
  by_cases h4 : e.sym = SDLK_RIGHT
  · rw [if_pos h4]
    exact ⟨_, rfl, ⟨hw, ha, hs, hd, hml, hmr⟩, by rw [Game.player_store]⟩
  rw [if_neg h4]
  by_cases h5 : e.sym = SDLK_a
  · rw [if_pos h5]
    exact ⟨_, Game.checkLatch_bool _ _, ⟨hw, hb, hs, hd, hml, hmr⟩, hkeep⟩
  rw [if_neg h5]
  by_cases h6 : e.sym = SDLK_s
  · rw [if_pos h6]
    exact ⟨_, Game.checkLatch_bool _ _, ⟨hw, ha, hb, hd, hml, hmr⟩, hkeep⟩
  rw [if_neg h6]
  by_cases h7 : e.sym = SDLK_d
  · rw [if_pos h7]
    exact ⟨_, Game.checkLatch_bool _ _, ⟨hw, ha, hs, hb, hml, hmr⟩, hkeep⟩
  rw [if_neg h7]
  by_cases h8 : e.sym = SDLK_w
  · rw [if_pos h8]
    exact ⟨_, Game.checkLatch_bool _ _, ⟨hb, ha, hs, hd, hml, hmr⟩, hkeep⟩
  rw [if_neg h8]
  by_cases h9 : e.sym = SDLK_LCTRL ∨ e.sym = SDLK_RCTRL
  · rw [if_pos h9]
    exact ⟨_, rfl, ⟨hw, ha, hs, hd, hml, hmr⟩, hkeep⟩
  rw [if_neg h9]
  by_cases h10 : e.sym = SDLK_c
  · rw [if_pos h10]
    by_cases h11 : g.player.2.ctrl = true
    · rw [if_pos h11]
      exact ⟨_, rfl, ⟨hw, ha, hs, hd, hml, hmr⟩, hkeep⟩
    · rw [if_neg h11]
      exact ⟨_, rfl, ⟨hw, ha, hs, hd, hml, hmr⟩, hkeep⟩
  · rw [if_neg h10]
    exact ⟨_, rfl, ⟨hw, ha, hs, hd, hml, hmr⟩, hkeep⟩

/-- Draining an event queue returns, keeps the latches in {0, 1} and leaves
the player's movement as it is. -/
theorem consumeEvents_inv (queue : List SDL_Event) :
    ∀ g : Game, g.controller.latched →
      ∃ g1, consumeEvents g queue = some g1 ∧ g1.controller.latched ∧
        g1.player.1.mv = g.player.1.mv := by
  induction queue with
  | nil =>
    intro g hc
    exact ⟨g, rfl, hc, rfl⟩
  | cons e queue ih =>
    intro g hc
    have hstep : ∃ g1, dispatchEvent g e = some g1 ∧ g1.controller.latched ∧
        g1.player.1.mv = g.player.1.mv := by
      unfold dispatchEvent
      split_ifs
      · exact ⟨_, rfl, (Game.mouseEvent_inv g e.button true hc).1, rfl⟩
      · exact ⟨_, rfl, (Game.mouseEvent_inv g e.button false hc).1, rfl⟩
      · exact Game.keyEvent_inv g e.key true hc
      · exact Game.keyEvent_inv g e.key false hc
      · exact ⟨_, rfl, hc, rfl⟩
      · exact ⟨g, rfl, hc, rfl⟩
    obtain ⟨g1, hg1, hc1, hmv1⟩ := hstep
    obtain ⟨g2, hg2, hc2, hmv2⟩ := ih g1 hc1
    refine ⟨g2, ?_, hc2, hmv2.trans hmv1⟩
    unfold consumeEvents
    rw [hg1]
    exact hg2

/-- The function `update` does not write the controller. -/
theorem update_controller (g g1 : Game) (h : update g = some g1) :
    g1.controller = g.controller := by
  unfold update at h
  cases hm : g.player.1.mv.update
      ⟨(g.controller.d : Int) - (g.controller.a : Int),
        (g.controller.w : Int) - (g.controller.s : Int)⟩ with
  | none => simp [hm] at h
  | some mv =>
    simp only [hm, Option.map_some', Option.some.injEq] at h
    rw [← h]
    rfl

/-- Every frame of the loop, whatever events arrive, passes all assertions and
keeps the latches in {0, 1} and the player's velocity in [-15, 15]. -/
theorem eventLoop_keeps_bound (d : Display) (frames : List (List SDL_Event)) :
    ∀ g : Game, g.controller.latched →
      (g.player.1.mv.a = 3 ∧ g.player.1.mv.maxV = 15 ∧
        |g.player.1.mv.v.x| ≤ 15 ∧ |g.player.1.mv.v.y| ≤ 15) →
      ∃ g1, eventLoop d g frames = some g1 ∧ g1.controller.latched ∧
        g1.player.1.mv.a = 3 ∧ g1.player.1.mv.maxV = 15 ∧
        |g1.player.1.mv.v.x| ≤ 15 ∧ |g1.player.1.mv.v.y| ≤ 15 := by
  induction frames with
  | nil =>
    intro g hc hinv
    exact ⟨g, rfl, hc, hinv⟩
  | cons queue rest ih =>
    intro g hc hinv
    unfold eventLoop
    by_cases hq : g.quit = true
    · rw [if_pos hq]
      exact ⟨g, rfl, hc, hinv⟩
    · rw [if_neg hq]
      obtain ⟨g1, hg1, hc1, hmv1⟩ := consumeEvents_inv queue g hc
      obtain ⟨g2, hg2, hinv2⟩ := update_keeps_bound g1 hc1 (by rw [hmv1]; exact hinv)
      have hc2 : g2.controller.latched := by
        rw [update_controller g1 g2 hg2]
        exact hc1
      have hframe : frameStep d g queue =
          some { (paintScreen d g2).1 with loop := ((paintScreen d g2).1.loop + 1) % 2 ^ 32 } := by
        unfold frameStep
        rw [hg1, Option.some_bind, hg2]
        rfl
      rw [hframe, Option.some_bind]
      exact ih _ hc2 hinv2

/-- From the set-up of `game()`, any number of frames with any events runs
without a failing assertion and leaves the player's velocity in [-15, 15]. -/
theorem game_velocity_bounded (frames : List (List SDL_Event)) :
    ∃ s g1, gameSetup = some s ∧ eventLoop {} s.g frames = some g1 ∧
      -15 ≤ g1.player.1.mv.v.x ∧ g1.player.1.mv.v.x ≤ 15 ∧
      -15 ≤ g1.player.1.mv.v.y ∧ g1.player.1.mv.v.y ≤ 15 := by
  obtain ⟨s, hs⟩ : ∃ s, gameSetup = some s := ⟨_, rfl⟩
  have hs2 : s.g.controller.latched ∧ s.g.player.1.mv = {} := by
    have h : ∀ t, gameSetup = some t → t.g.controller.latched ∧ t.g.player.1.mv = {} := by
      intro t ht
      have ht2 : some t = gameSetup := ht.symm
      cases ht2
      exact ⟨by decide, by decide⟩
    exact h s hs
  obtain ⟨g1, hg1, _, _, _, hx, hy⟩ :=
    eventLoop_keeps_bound {} frames s.g hs2.1 (by rw [hs2.2]; decide)
  exact ⟨s, g1, hs, hg1, (abs_le.mp hx).1, (abs_le.mp hx).2, (abs_le.mp hy).1,
    (abs_le.mp hy).2⟩

end DungeonGame
